import Mathlib

/-!
Verification of the screeps colony-AI core against its natural-language
specification.  Each definition is a shallow embedding of a function of the
JavaScript source; theorems settle the spec claims about them.
-/

namespace Screeps

/-! ## Body parts and body-shape functions (src/manager.spawn.js) -/

/-- Creep body part kinds used by the spawn manager. -/
inductive BodyPart
  | work
  | carry
  | move
deriving DecidableEq, Repr

/-- Energy cost of a single body part (WORK 100, CARRY 50, MOVE 50,
as documented in the cost comments of src/manager.spawn.js). -/
def partCost : BodyPart → Nat
  | .work => 100
  | .carry => 50
  | .move => 50

/-- Total energy cost of a body. -/
def bodyCost (b : List BodyPart) : Nat := (b.map partCost).sum

/-- Embeds spawnManager.getMinerBody (src/manager.spawn.js lines 15-26). -/
def getMinerBody (energy _rcl : Nat) : List BodyPart :=
  if 550 ≤ energy then
    [.work, .work, .work, .work, .work, .carry, .move]
  else if 450 ≤ energy then
    [.work, .work, .work, .work, .carry, .move]
  else if 350 ≤ energy then
    [.work, .work, .work, .carry, .move]
  else
    [.work, .work, .carry, .move]

/-- Embeds spawnManager.getHaulerBody (src/manager.spawn.js lines 35-57). -/
def getHaulerBody (energy _rcl : Nat) : List BodyPart :=
  if 1200 ≤ energy then
    [.carry, .carry, .carry, .carry, .carry, .carry, .carry, .carry,
     .carry, .carry, .carry, .carry, .carry, .carry, .carry, .carry,
     .move, .move, .move, .move, .move, .move, .move, .move]
  else if 600 ≤ energy then
    [.carry, .carry, .carry, .carry, .carry, .carry, .carry, .carry,
     .move, .move, .move, .move]
  else if 300 ≤ energy then
    [.carry, .carry, .carry, .carry, .move, .move]
  else
    [.carry, .carry, .move]

/-- Embeds spawnManager.getUpgraderBody (src/manager.spawn.js lines 65-91). -/
def getUpgraderBody (energy rcl : Nat) : List BodyPart :=
  if 1100 ≤ energy ∧ 7 ≤ rcl then
    [.work, .work, .work, .work, .work, .work,
     .carry, .carry, .carry,
     .move, .move, .move, .move, .move, .move]
  else if 800 ≤ energy then
    [.work, .work, .work, .work,
     .carry, .carry, .carry, .carry,
     .move, .move, .move, .move]
  else if 550 ≤ energy then
    [.work, .work, .work, .carry, .carry, .move, .move, .move]
  else if 300 ≤ energy then
    [.work, .work, .carry, .move, .move]
  else
    [.work, .carry, .move]

/-- Embeds spawnManager.getBuilderBody (src/manager.spawn.js lines 99-121). -/
def getBuilderBody (energy _rcl : Nat) : List BodyPart :=
  if 800 ≤ energy then
    [.work, .work, .work, .work,
     .carry, .carry, .carry, .carry,
     .move, .move, .move, .move]
  else if 550 ≤ energy then
    [.work, .work, .work, .carry, .carry, .carry, .move, .move, .move]
  else if 400 ≤ energy then
    [.work, .work, .carry, .carry, .move, .move]
  else
    [.work, .carry, .move]

/-- Embeds spawnManager.getMineralMinerBody (src/manager.spawn.js lines 129-149). -/
def getMineralMinerBody (energy _rcl : Nat) : List BodyPart :=
  if 1200 ≤ energy then
    [.work, .work, .work, .work, .work, .work, .work, .work,
     .carry, .carry, .carry, .carry,
     .move, .move, .move, .move, .move, .move]
  else if 800 ≤ energy then
    [.work, .work, .work, .work, .work, .work,
     .carry, .carry, .carry,
     .move, .move, .move, .move]
  else
    [.work, .work, .work, .carry, .move, .move]

/-! ## Spawn priority ladder (src/manager.spawn.js getSpawnPriority) -/

/-- Creep roles handled by the main loop and the spawn manager. -/
inductive Role
  | harvester
  | miner
  | hauler
  | upgrader
  | builder
  | mineralMiner
deriving DecidableEq, Repr

/-- The census-relevant slice of a live creep: its role and (for miners)
the source it is assigned to in memory. -/
structure Creep where
  role : Role
  sourceId : Option String := none
deriving DecidableEq, Repr

/-- The slice of a room mineral relevant to spawn priority: its id, the
remaining amount, and whether an extractor structure sits on it. -/
structure Mineral where
  id : String
  mineralAmount : Nat
  hasExtractor : Bool
deriving DecidableEq, Repr

/-- The room snapshot consumed by getSpawnPriority: live creep census,
cached source ids, controller level, energy capacity, construction sites,
minerals, and the free energy capacity of each container. -/
structure RoomState where
  creeps : List Creep
  sourceIds : List String
  rcl : Nat
  energyCapacityAvailable : Nat
  constructionSiteCount : Nat
  minerals : List Mineral
  containerFreeCaps : List Nat
deriving DecidableEq, Repr

/-- The (role, body, memory) record returned by getSpawnPriority. -/
structure SpawnRequest where
  role : Role
  body : List BodyPart
  sourceId : Option String := none
  mineralId : Option String := none
deriving DecidableEq, Repr

/-- Embeds spawnManager.getSpawnPriority (src/manager.spawn.js lines 156-281):
the deterministic spawn priority ladder, first match wins. -/
def getSpawnPriority (room : RoomState) : Option SpawnRequest :=
  let creeps := room.creeps
  let sources := room.sourceIds
  let sourceCount := sources.length
  let miners := creeps.filter (fun c => decide (c.role = Role.miner))
  let haulers := creeps.filter (fun c => decide (c.role = Role.hauler))
  let upgraders := creeps.filter (fun c => decide (c.role = Role.upgrader))
  let builders := creeps.filter (fun c => decide (c.role = Role.builder))
  let mineralMiners := creeps.filter (fun c => decide (c.role = Role.mineralMiner))
  let rcl := room.rcl
  let energy := room.energyCapacityAvailable
  -- Emergency bootstrap branch
  if haulers.length = 0 ∧ miners.length = 0 then
    some { role := Role.harvester, body := [.work, .carry, .move] }
  -- Priority 1: miners, one per source
  else if miners.length < sourceCount then
    let assignedSources := miners.map (fun m => m.sourceId)
    let unassignedSource := sources.find? (fun id => !(assignedSources.contains (some id)))
    some { role := Role.miner, body := getMinerBody energy rcl,
           sourceId := unassignedSource }
  -- Priority 2: haulers up to max(2, sourceCount)
  else if haulers.length < max 2 sourceCount then
    some { role := Role.hauler, body := getHaulerBody energy rcl }
  -- Priority 3: upgraders
  else if upgraders.length < (if rcl < 8 then 2 else 1) then
    some { role := Role.upgrader, body := getUpgraderBody energy rcl }
  -- Priority 4: builders, only when construction sites exist
  else if builders.length < (if 0 < room.constructionSiteCount then 2 else 0) then
    some { role := Role.builder, body := getBuilderBody energy rcl }
  else
    -- Priority 5: mineral miner at RCL 6+, extractor present, deposit non-empty
    let p5 : Option SpawnRequest :=
      if 6 ≤ rcl then
        match room.minerals.head? with
        | some m =>
          if 0 < m.mineralAmount ∧ m.hasExtractor = true ∧ mineralMiners.length = 0 then
            some { role := Role.mineralMiner, body := getMineralMinerBody energy rcl,
                   mineralId := some m.id }
          else none
        | none => none
      else none
    match p5 with
    | some r => some r
    | none =>
      -- Priority 6: extra haulers when containers are backing up
      if haulers.length < sourceCount * 2 ∧
         0 < (room.containerFreeCaps.filter (fun f => decide (f < 500))).length then
        some { role := Role.hauler, body := getHaulerBody energy rcl }
      else
        none

/-! ## Link network (src/unnamed/part_005, linkManager.runLinks) -/

/-- The slice of a link structure used by runLinks: stored energy, total
energy capacity, and remaining cooldown. -/
structure Link where
  energy : Nat
  capacity : Nat
  cooldown : Nat
deriving DecidableEq, Repr

/-- Free energy capacity of a link (store.getFreeCapacity(RESOURCE_ENERGY)). -/
def Link.free (l : Link) : Nat := l.capacity - l.energy

/-- One executed energy push between two links. -/
structure Push where
  sender : Link
  receiver : Link
  amount : Nat
deriving DecidableEq, Repr

/-- Modelled from the spec: the engine primitive StructureLink.transferEnergy
called without an explicit amount is not part of this repository; per the
spec, a push never exceeds the sender's balance nor the receiver's free
room, so the transferred amount is min(senderBalance, receiverFreeCapacity). -/
def transferEnergyAmount (sender receiver : Link) : Nat :=
  min sender.energy receiver.free

/-- The link-network state runLinks operates on: the source links and the
optional controller and hub links (resolved from room memory). -/
structure LinkNet where
  sourceLinks : List Link
  controllerLink : Option Link
  hubLink : Option Link
deriving Repr

/-- Push decision for one source link (body of the source-link loop in
linkManager.runLinks, src/unnamed/part_005 lines 89-106). -/
def sourceLinkPush (controllerLink hubLink : Option Link) (s : Link) : Option Push :=
  if 0 < s.cooldown ∨ s.energy < 400 then
    none
  else
    match controllerLink with
    | some c =>
      if 400 ≤ c.free then some ⟨s, c, transferEnergyAmount s c⟩
      else
        match hubLink with
        | some h => if 400 ≤ h.free then some ⟨s, h, transferEnergyAmount s h⟩ else none
        | none => none
    | none =>
      match hubLink with
      | some h => if 400 ≤ h.free then some ⟨s, h, transferEnergyAmount s h⟩ else none
      | none => none

/-- Push decision for the hub link (the hub-to-controller transfer at the
end of linkManager.runLinks, src/unnamed/part_005 lines 109-114). -/
def hubLinkPush (hubLink controllerLink : Option Link) : Option Push :=
  match hubLink, controllerLink with
  | some h, some c =>
    if h.cooldown = 0 ∧ 400 ≤ h.energy ∧ 400 ≤ c.free then
      some ⟨h, c, transferEnergyAmount h c⟩
    else none
  | _, _ => none

/-- Embeds linkManager.runLinks (src/unnamed/part_005 lines 76-115): every
eligible source link pushes to the controller link if it has room, else to
the hub link; then the hub link pushes surplus to the controller link.
Returns the list of pushes executed this tick. -/
def runLinks (net : LinkNet) : List Push :=
  let sourcePushes := net.sourceLinks.filterMap (sourceLinkPush net.controllerLink net.hubLink)
  sourcePushes ++ (hubLinkPush net.hubLink net.controllerLink).toList

/-! ## Tower target arbitration (src/unnamed/part_003, roomManager) -/

/-- The slice of a hostile creep used by findPriorityTarget: active HEAL,
RANGED_ATTACK and ATTACK part counts, and range to the first own spawn. -/
structure Hostile where
  heal : Nat
  ranged : Nat
  attack : Nat
  distToSpawn : Nat
deriving DecidableEq, Repr

/-- Embeds RoomPosition.findClosestByRange over a hostile list: the first
element attaining the minimal range to the spawn. -/
def closestByRange : List Hostile → Option Hostile
  | [] => none
  | h :: t =>
    match closestByRange t with
    | some b => if b.distToSpawn < h.distToSpawn then some b else some h
    | none => some h

/-- Embeds roomManager.findClosestToSpawn (src/unnamed/part_003 lines
129-135): with a spawn present, the hostile closest to it by range;
without one, the first hostile of the list. -/
def findClosestToSpawn (hasSpawn : Bool) (hostiles : List Hostile) : Option Hostile :=
  if hasSpawn then closestByRange hostiles else hostiles.head?

/-- Embeds roomManager.findPriorityTarget (src/unnamed/part_003 lines
95-122): healers first, then ranged attackers, then melee attackers, then
any hostile, each resolved by closeness to the spawn. -/
def findPriorityTarget (hasSpawn : Bool) (hostiles : List Hostile) : Option Hostile :=
  let healers := hostiles.filter (fun c => decide (0 < c.heal))
  if healers ≠ [] then
    findClosestToSpawn hasSpawn healers
  else
    let ranged := hostiles.filter (fun c => decide (0 < c.ranged))
    if ranged ≠ [] then
      findClosestToSpawn hasSpawn ranged
    else
      let melee := hostiles.filter (fun c => decide (0 < c.attack))
      if melee ≠ [] then
        findClosestToSpawn hasSpawn melee
      else
        findClosestToSpawn hasSpawn hostiles

/-! ## Terminal market selling (src/manager.terminal.js) -/

/-- The mineral resource types carried in the sell-threshold table of
terminalManager.sellExcessResources. -/
inductive ResourceType
  | hydrogen
  | oxygen
  | utrium
  | lemergium
  | keanium
  | zynthium
  | catalyst
  | ghodium
deriving DecidableEq, Repr

/-- Order direction on the market. -/
inductive OrderKind
  | sell
  | buy
deriving DecidableEq, Repr

/-- The slice of an existing own market order matched against in
createSellOrder. -/
structure MyOrder where
  kind : OrderKind
  resource : ResourceType
  roomName : String
deriving DecidableEq, Repr

/-- A sell order as created by createSellOrder. -/
structure SellOrder where
  resource : ResourceType
  totalAmount : Nat
  price : ℚ
  roomName : String
deriving DecidableEq, Repr

/-- The market view consumed by the sell path: own active orders, the buy
order prices per resource type, and the credit balance.  Prices are
modelled as exact rationals. -/
structure Market where
  myOrders : List MyOrder
  buyPrices : ResourceType → List ℚ
  credits : ℚ

/-- Highest price among the buy orders (lodash max over prices). -/
def bestBuyPrice : List ℚ → Option ℚ
  | [] => none
  | p :: t => some (t.foldl max p)

/-- Embeds terminalManager.createSellOrder (src/manager.terminal.js lines
113-156): skip when a matching own sell order exists or no buy orders
exist; otherwise price at 0.95 of the best buy price, cap the amount at
5000, and create only when credits exceed 1000. -/
def createSellOrder (mkt : Market) (roomName : String) (resourceType : ResourceType)
    (amount : Nat) : Option SellOrder :=
  let existingOrder := mkt.myOrders.find? (fun o =>
    decide (o.kind = OrderKind.sell ∧ o.resource = resourceType ∧ o.roomName = roomName))
  if existingOrder.isSome then
    none
  else
    match bestBuyPrice (mkt.buyPrices resourceType) with
    | none => none
    | some bestPrice =>
      let sellPrice := bestPrice * (95 / 100 : ℚ)
      let sellAmount := min amount 5000
      if 1000 < mkt.credits then
        some { resource := resourceType, totalAmount := sellAmount,
               price := sellPrice, roomName := roomName }
      else
        none

/-- The sell-threshold table of terminalManager.sellExcessResources
(src/manager.terminal.js lines 85-94). -/
def sellThresholds : List (ResourceType × Nat) :=
  [(.hydrogen, 5000), (.oxygen, 5000), (.utrium, 3000), (.lemergium, 3000),
   (.keanium, 3000), (.zynthium, 3000), (.catalyst, 3000), (.ghodium, 1000)]

/-- Embeds terminalManager.sellExcessResources (src/manager.terminal.js
lines 83-104): for each resource above its threshold, attempt one sell
order sized at the surplus.  Returns the orders created this evaluation. -/
def sellExcessResources (store : ResourceType → Nat) (mkt : Market)
    (roomName : String) : List SellOrder :=
  sellThresholds.filterMap (fun rt =>
    let amount := store rt.1
    if rt.2 < amount then createSellOrder mkt roomName rt.1 (amount - rt.2) else none)

/-! ## Path-caching movement resolver
(src/unnamed/part_000 roleHauler.moveToTarget and
src/role.upgrader.js roleUpgrader.moveToTarget) -/

/-- Result codes of the moveByPath action primitive that the resolvers
branch on. -/
inductive MoveResult
  | ok
  | tired
  | errNotFound
  | errInvalidArgs
deriving DecidableEq, Repr

/-- Embeds Room.serializePath on an abstract step sequence. -/
def serializePath (steps : List Nat) : String :=
  String.intercalate "," (steps.map toString)

/-- The path-cache fields of a creep's persistent record. -/
structure PathMem where
  path : Option String
  pathAge : Option Nat
deriving DecidableEq, Repr

/-- Embeds the moveToTarget resolvers of roleHauler (src/unnamed/part_000
lines 277-300) and roleUpgrader (src/role.upgrader.js lines 81-107), whose
cache behavior coincides: follow the cached path if present, delete it on
an ERR_NOT_FOUND or ERR_INVALID_ARGS follow result, and when no cached
path remains, recompute, store the serialized path stamped with the
current tick, and follow it.  `follow` is the moveByPath primitive on a
serialized path, `newPath` the findPathTo result.  Returns the updated
record and the paths handed to moveByPath, in order. -/
def moveToTarget (follow : String → MoveResult) (newPath : List Nat) (now : Nat)
    (m : PathMem) : PathMem × List String :=
  let step1 : PathMem × List String :=
    match m.path with
    | some p =>
      if follow p = .errNotFound ∨ follow p = .errInvalidArgs then
        ({ m with path := none }, [p])
      else
        (m, [p])
    | none => (m, [])
  match step1.1.path with
  | some _ => step1
  | none =>
    if newPath.isEmpty then
      step1
    else
      ({ path := some (serializePath newPath), pathAge := some now },
       step1.2 ++ [serializePath newPath])

/-! ## Stale persisted ids in role behaviors
(src/role.mineralMiner.js and src/unnamed/part_002) -/

/-- The id-relevant slice of a mineral miner's persistent record. -/
structure MineralMinerMem where
  mineralId : Option String
deriving DecidableEq, Repr

/-- Embeds the assigned-mineral resolution prefix of roleMineralMiner.run
(src/role.mineralMiner.js lines 13-26, with assignMineral lines 61-66):
assign the room's first mineral if none is recorded, then resolve the
recorded id; a stale id is deleted from the record and the run returns.
`alive` is Game.getObjectById restricted to success.  Returns the resolved
mineral id (none when the run exits early) and the updated record. -/
def mineralMinerResolve (roomMinerals : List String) (alive : String → Bool)
    (m : MineralMinerMem) : Option String × MineralMinerMem :=
  let m1 : MineralMinerMem :=
    match m.mineralId with
    | none => { mineralId := roomMinerals.head? }
    | some _ => m
  match m1.mineralId with
  | none => (none, m1)
  | some i =>
    if alive i then (some i, m1)
    else (none, { mineralId := none })

/-- The id-relevant slice of a static miner's persistent record. -/
structure MinerMem where
  sourceId : Option String
deriving DecidableEq, Repr

/-- Embeds the assigned-source resolution prefix of roleMiner.run
(src/unnamed/part_002 lines 13-22): with no recorded id the run logs and
returns; with a recorded id that no longer resolves, the run logs and
returns leaving the record untouched.  Returns the resolved source id and
the updated record. -/
def minerResolve (alive : String → Bool) (m : MinerMem) :
    Option String × MinerMem :=
  match m.sourceId with
  | none => (none, m)
  | some i =>
    if alive i then (some i, m)
    else (none, m)

/-! ## Hauler state transitions (src/unnamed/part_000 roleHauler.run) -/

/-- Hauler finite-state-machine states. -/
inductive HaulerState
  | collecting
  | delivering
deriving DecidableEq, Repr

/-- The transition-relevant slice of a hauler's persistent record. -/
structure HaulerMem where
  state : HaulerState
  target : Option String
  path : Option String
deriving DecidableEq, Repr

/-- Embeds the state-management prefix of roleHauler.run (src/unnamed/
part_000 lines 10-23): switch collecting to delivering when free capacity
is zero, then delivering to collecting when carried energy is zero, each
switch clearing the cached target and path. -/
def haulerTransition (freeCapacity energy : Nat) (m : HaulerMem) : HaulerMem :=
  let m1 : HaulerMem :=
    if m.state = HaulerState.collecting ∧ freeCapacity = 0 then
      { state := HaulerState.delivering, target := none, path := none }
    else m
  if m1.state = HaulerState.delivering ∧ energy = 0 then
    { state := HaulerState.collecting, target := none, path := none }
  else m1

/-! ## Ephemeral TTL cache (src/manager.memory.js getCached / setCached) -/

/-- One entry of the process-lifetime cache: the stored value and the tick
it was written. -/
structure CacheEntry (α : Type) where
  data : α
  time : Nat
deriving DecidableEq, Repr

/-- The global cache object: keyed entries, later writes shadowing earlier
ones.  `none` models an uninitialized global.cache. -/
def Cache (α : Type) := Option (List (String × CacheEntry α))

/-- Embeds memoryManager.getCached (src/manager.memory.js lines 72-83):
initialize the cache object if absent, return the entry's value only when
now - writtenAtTick < ttl, else null; the entry itself is left in place.
Returns the read result and the cache state after the call. -/
def getCached (cache : Cache α) (key : String) (ttl : Nat) (now : Nat) :
    Option α × List (String × CacheEntry α) :=
  let c := cache.getD []
  match c.lookup key with
  | some entry =>
    if (now : ℤ) - entry.time < ttl then (some entry.data, c) else (none, c)
  | none => (none, c)

/-- Embeds memoryManager.setCached (src/manager.memory.js lines 90-99):
store the value stamped with the current tick. -/
def setCached (cache : Cache α) (key : String) (data : α) (now : Nat) :
    List (String × CacheEntry α) :=
  (key, { data := data, time := now }) :: cache.getD []

/-! ## Persistent-store cleanup (src/manager.memory.js) -/

/-- The per-creep persistent record as seen by the cleanup passes: the
cached path and its age stamp, plus the rest of the record. -/
structure CreepRecord where
  path : Option String
  pathAge : Option Nat
  role : Role
deriving DecidableEq, Repr

/-- The persistent state store: creep records and room records, keyed by
name. -/
structure Memory where
  creeps : List (String × CreepRecord)
  rooms : List (String × List String)
deriving DecidableEq, Repr

/-- JavaScript truthiness of an optional serialized path (an absent or
empty string is falsy). -/
def truthyPath : Option String → Bool
  | none => false
  | some s => !s.isEmpty

/-- JavaScript truthiness of an optional numeric age stamp (absent or 0 is
falsy). -/
def truthyAge : Option Nat → Bool
  | none => false
  | some a => decide (a ≠ 0)

/-- Embeds memoryManager.cleanDeadCreeps (src/manager.memory.js lines
12-18): delete every record whose name no longer appears among the live
creeps. -/
def cleanDeadCreeps (liveCreeps : List String) (creeps : List (String × CreepRecord)) :
    List (String × CreepRecord) :=
  creeps.filter (fun nr => liveCreeps.contains nr.1)

/-- Embeds memoryManager.cleanOldPaths (src/manager.memory.js lines
24-33): drop the path and age stamp of every record whose path is older
than maxAge ticks. -/
def cleanOldPaths (now : Nat) (maxAge : Nat) (creeps : List (String × CreepRecord)) :
    List (String × CreepRecord) :=
  creeps.map (fun nr =>
    if truthyPath nr.2.path ∧ truthyAge nr.2.pathAge ∧
       (maxAge : ℤ) < (now : ℤ) - (nr.2.pathAge.getD 0) then
      (nr.1, { nr.2 with path := none, pathAge := none })
    else nr)

/-- Embeds memoryManager.cleanRoomMemory (src/manager.memory.js lines
38-44): delete room records for rooms without visibility. -/
def cleanRoomMemory (liveRooms : List String) (rooms : List (String × List String)) :
    List (String × List String) :=
  rooms.filter (fun nr => liveRooms.contains nr.1)

/-- Embeds memoryManager.runCleanup (src/manager.memory.js lines 129-144):
dead-creep reconciliation every 10 ticks, path-staleness pruning every 100
ticks, room-record pruning every 1000 ticks. -/
def runCleanup (now : Nat) (liveCreeps liveRooms : List String) (mem : Memory) : Memory :=
  let mem1 :=
    if now % 10 = 0 then { mem with creeps := cleanDeadCreeps liveCreeps mem.creeps }
    else mem
  let mem2 :=
    if now % 100 = 0 then { mem1 with creeps := cleanOldPaths now 1000 mem1.creeps }
    else mem1
  if now % 1000 = 0 then { mem2 with rooms := cleanRoomMemory liveRooms mem2.rooms }
  else mem2

/-- `b1` is at most as capable as `b2`: no more parts and no higher total
part cost. -/
def bodyLeCapable (b1 b2 : List BodyPart) : Prop :=
  b1.length ≤ b2.length ∧ bodyCost b1 ≤ bodyCost b2

/-! ## Theorems -/

lemma getMinerBody_mono (rcl : Nat) {c1 c2 : Nat} (h : c1 ≤ c2) :
    bodyLeCapable (getMinerBody c1 rcl) (getMinerBody c2 rcl) := by
  unfold getMinerBody bodyLeCapable
  split_ifs <;> first | decide | omega

lemma getHaulerBody_mono (rcl : Nat) {c1 c2 : Nat} (h : c1 ≤ c2) :
    bodyLeCapable (getHaulerBody c1 rcl) (getHaulerBody c2 rcl) := by
  unfold getHaulerBody bodyLeCapable
  split_ifs <;> first | decide | omega

lemma getUpgraderBody_mono (rcl : Nat) {c1 c2 : Nat} (h : c1 ≤ c2) :
    bodyLeCapable (getUpgraderBody c1 rcl) (getUpgraderBody c2 rcl) := by
  unfold getUpgraderBody bodyLeCapable
  split_ifs <;> first | decide | omega

lemma getBuilderBody_mono (rcl : Nat) {c1 c2 : Nat} (h : c1 ≤ c2) :
    bodyLeCapable (getBuilderBody c1 rcl) (getBuilderBody c2 rcl) := by
  unfold getBuilderBody bodyLeCapable
  split_ifs <;> first | decide | omega

lemma getMineralMinerBody_mono (rcl : Nat) {c1 c2 : Nat} (h : c1 ≤ c2) :
    bodyLeCapable (getMineralMinerBody c1 rcl) (getMineralMinerBody c2 rcl) := by
  unfold getMineralMinerBody bodyLeCapable
  split_ifs <;> first | decide | omega

/-- Claim C3: for every role (miner, hauler, upgrader, builder,
mineral-miner), the body-shape function is monotonic in available energy
capacity at a fixed tier: a smaller capacity never yields a body with more
parts or a higher total part cost. -/
theorem bodyShapes_monotone (rcl c1 c2 : Nat) (h : c1 < c2) :
    bodyLeCapable (getMinerBody c1 rcl) (getMinerBody c2 rcl) ∧
    bodyLeCapable (getHaulerBody c1 rcl) (getHaulerBody c2 rcl) ∧
    bodyLeCapable (getUpgraderBody c1 rcl) (getUpgraderBody c2 rcl) ∧
    bodyLeCapable (getBuilderBody c1 rcl) (getBuilderBody c2 rcl) ∧
    bodyLeCapable (getMineralMinerBody c1 rcl) (getMineralMinerBody c2 rcl) := by
  have h' : c1 ≤ c2 := Nat.le_of_lt h
  exact ⟨getMinerBody_mono rcl h', getHaulerBody_mono rcl h',
         getUpgraderBody_mono rcl h', getBuilderBody_mono rcl h',
         getMineralMinerBody_mono rcl h'⟩

/-- Witness for claim C3 at tier 3 and capacities 300 < 600. -/
theorem bodyShapes_monotone_witness :
    bodyLeCapable (getMinerBody 300 3) (getMinerBody 600 3) ∧
    bodyLeCapable (getHaulerBody 300 3) (getHaulerBody 600 3) ∧
    bodyLeCapable (getUpgraderBody 300 3) (getUpgraderBody 600 3) ∧
    bodyLeCapable (getBuilderBody 300 3) (getBuilderBody 600 3) ∧
    bodyLeCapable (getMineralMinerBody 300 3) (getMineralMinerBody 600 3) :=
  bodyShapes_monotone 3 300 600 (by decide)

/-- Claim C1, counterexample: a world with two cached source ids and, after
the first emergency production, exactly one generalist agent of role
harvester in the census.  The scheduler's second call again returns the
emergency generalist, not a static-extractor (miner) assignment, because
a harvester counts as neither hauler nor miner in the emergency guard. -/
theorem getSpawnPriority_second_call_not_miner :
    (getSpawnPriority
      { creeps := [{ role := Role.harvester }],
        sourceIds := ["s1", "s2"], rcl := 3,
        energyCapacityAvailable := 550, constructionSiteCount := 0,
        minerals := [], containerFreeCaps := [] }).map SpawnRequest.role
      = some Role.harvester ∧
    (getSpawnPriority
      { creeps := [{ role := Role.harvester }],
        sourceIds := ["s1", "s2"], rcl := 3,
        energyCapacityAvailable := 550, constructionSiteCount := 0,
        minerals := [], containerFreeCaps := [] }).map SpawnRequest.role
      ≠ some Role.miner := by
  decide

/-- Claim C1 (amended): in a tier-3 world with two cached source ids,
(1) the scheduler's first call on an empty census returns the emergency
generalist (role harvester, minimal WORK-CARRY-MOVE body);
(2) the immediately following call, with only that generalist present,
returns the emergency generalist again, since a harvester counts as
neither hauler nor miner;
(3) once the census holds a hauler (and no miner), the scheduler returns a
static-extractor (miner) assignment carrying the first extraction-node id;
(4) with a hauler and a miner assigned to the first node, it returns a
miner assignment carrying the first node id not assigned to a live miner. -/
theorem getSpawnPriority_emergency_then_miner :
    getSpawnPriority
      { creeps := [], sourceIds := ["s1", "s2"], rcl := 3,
        energyCapacityAvailable := 550, constructionSiteCount := 0,
        minerals := [], containerFreeCaps := [] }
      = some { role := Role.harvester, body := [.work, .carry, .move] } ∧
    getSpawnPriority
      { creeps := [{ role := Role.harvester }],
        sourceIds := ["s1", "s2"], rcl := 3,
        energyCapacityAvailable := 550, constructionSiteCount := 0,
        minerals := [], containerFreeCaps := [] }
      = some { role := Role.harvester, body := [.work, .carry, .move] } ∧
    getSpawnPriority
      { creeps := [{ role := Role.hauler }],
        sourceIds := ["s1", "s2"], rcl := 3,
        energyCapacityAvailable := 550, constructionSiteCount := 0,
        minerals := [], containerFreeCaps := [] }
      = some { role := Role.miner,
               body := [.work, .work, .work, .work, .work, .carry, .move],
               sourceId := some "s1" } ∧
    getSpawnPriority
      { creeps := [{ role := Role.hauler },
                   { role := Role.miner, sourceId := some "s1" }],
        sourceIds := ["s1", "s2"], rcl := 3,
        energyCapacityAvailable := 550, constructionSiteCount := 0,
        minerals := [], containerFreeCaps := [] }
      = some { role := Role.miner,
               body := [.work, .work, .work, .work, .work, .carry, .move],
               sourceId := some "s2" } := by
  refine ⟨by decide, by decide, by decide, by decide⟩

lemma sourceLinkPush_spec {cl hl : Option Link} {s : Link} {p : Push}
    (h : sourceLinkPush cl hl s = some p) :
    p.amount = min p.sender.energy p.receiver.free ∧
    p.sender.cooldown = 0 ∧ 400 ≤ p.sender.energy ∧ 400 ≤ p.receiver.free := by
  rcases cl with _ | c <;> rcases hl with _ | hb <;>
    simp only [sourceLinkPush, transferEnergyAmount] at h <;>
    split_ifs at h <;> cases h <;>
    refine ⟨rfl, ?_, ?_, ?_⟩ <;> simp_all

lemma hubLinkPush_spec {hl cl : Option Link} {p : Push}
    (h : hubLinkPush hl cl = some p) :
    p.amount = min p.sender.energy p.receiver.free ∧
    p.sender.cooldown = 0 ∧ 400 ≤ p.sender.energy ∧ 400 ≤ p.receiver.free := by
  rcases hl with _ | hb <;> rcases cl with _ | c <;>
    simp only [hubLinkPush, transferEnergyAmount] at h
  · cases h
  · cases h
  · cases h
  · split_ifs at h
    cases h
    refine ⟨rfl, ?_, ?_, ?_⟩ <;> simp_all

/-- Claim C2 (amended): every relay push executed by runLinks transfers
min(senderBalance, receiverFreeCapacity) — in particular it never exceeds
the sender's balance nor the receiver's free capacity — and a push only
happens with the sender off cooldown, holding at least the 400-energy flow
threshold, and the receiver having at least 400 free capacity; the amount
itself is not capped by the threshold. -/
theorem runLinks_push_spec (net : LinkNet) (p : Push) (hp : p ∈ runLinks net) :
    p.amount = min p.sender.energy p.receiver.free ∧
    p.amount ≤ p.sender.energy ∧ p.amount ≤ p.receiver.free ∧
    p.sender.cooldown = 0 ∧ 400 ≤ p.sender.energy ∧ 400 ≤ p.receiver.free := by
  unfold runLinks at hp
  rcases List.mem_append.mp hp with hmem | hmem
  · obtain ⟨s, _, hps⟩ := List.mem_filterMap.mp hmem
    obtain ⟨h1, h2, h3, h4⟩ := sourceLinkPush_spec hps
    exact ⟨h1, h1 ▸ Nat.min_le_left _ _, h1 ▸ Nat.min_le_right _ _, h2, h3, h4⟩
  · rw [Option.mem_toList] at hmem
    obtain ⟨h1, h2, h3, h4⟩ := hubLinkPush_spec hmem
    exact ⟨h1, h1 ▸ Nat.min_le_left _ _, h1 ▸ Nat.min_le_right _ _, h2, h3, h4⟩

/-- Witness for claim C2 (amended) on a network with one source link
holding 450 energy and an empty controller link. -/
theorem runLinks_push_spec_witness :
    (⟨⟨450, 800, 0⟩, ⟨0, 800, 0⟩, 450⟩ : Push).amount =
      min (⟨450, 800, 0⟩ : Link).energy (⟨0, 800, 0⟩ : Link).free ∧
    (⟨⟨450, 800, 0⟩, ⟨0, 800, 0⟩, 450⟩ : Push).amount ≤
      (⟨450, 800, 0⟩ : Link).energy ∧
    (⟨⟨450, 800, 0⟩, ⟨0, 800, 0⟩, 450⟩ : Push).amount ≤
      (⟨0, 800, 0⟩ : Link).free ∧
    (⟨450, 800, 0⟩ : Link).cooldown = 0 ∧
    400 ≤ (⟨450, 800, 0⟩ : Link).energy ∧
    400 ≤ (⟨0, 800, 0⟩ : Link).free :=
  runLinks_push_spec ⟨[⟨450, 800, 0⟩], some ⟨0, 800, 0⟩, none⟩
    ⟨⟨450, 800, 0⟩, ⟨0, 800, 0⟩, 450⟩ (by decide)

/-- Claim C2, counterexample: a source link holding 500 energy pushing to
an empty controller link (800 free) transfers 500, which exceeds the
400-energy flow threshold, so the pushed amount is not
min(senderBalance, receiverFreeCapacity, thresholdCap). -/
theorem runLinks_push_not_threshold_capped :
    runLinks ⟨[⟨500, 800, 0⟩], some ⟨0, 800, 0⟩, none⟩ =
      [⟨⟨500, 800, 0⟩, ⟨0, 800, 0⟩, 500⟩] ∧
    (⟨⟨500, 800, 0⟩, ⟨0, 800, 0⟩, 500⟩ : Push).amount ≠
      min (min (⟨500, 800, 0⟩ : Link).energy (⟨0, 800, 0⟩ : Link).free) 400 := by
  decide

lemma closestByRange_spec :
    ∀ {hs : List Hostile}, hs ≠ [] →
      ∃ t, closestByRange hs = some t ∧ t ∈ hs ∧
        ∀ u ∈ hs, t.distToSpawn ≤ u.distToSpawn := by
  intro hs
  induction hs with
  | nil => intro h; exact absurd rfl h
  | cons a t ih =>
    intro _
    by_cases ht : t = []
    · subst ht
      exact ⟨a, by simp [closestByRange], by simp, by simp⟩
    · obtain ⟨b, hb1, hb2, hb3⟩ := ih ht
      by_cases hlt : b.distToSpawn < a.distToSpawn
      · refine ⟨b, by simp [closestByRange, hb1, hlt], by simp [hb2], ?_⟩
        intro u hu
        rcases List.mem_cons.mp hu with rfl | hu
        · omega
        · exact hb3 u hu
      · refine ⟨a, by simp [closestByRange, hb1, hlt], by simp, ?_⟩
        intro u hu
        rcases List.mem_cons.mp hu with rfl | hu
        · exact Nat.le_refl _
        · have := hb3 u hu
          omega

lemma findClosestToSpawn_spec (hasSpawn : Bool) {hs : List Hostile} (hne : hs ≠ []) :
    ∃ t, findClosestToSpawn hasSpawn hs = some t ∧ t ∈ hs ∧
      (hasSpawn = true → ∀ u ∈ hs, t.distToSpawn ≤ u.distToSpawn) := by
  cases hasSpawn with
  | false =>
    cases hs with
    | nil => exact absurd rfl hne
    | cons a t =>
      exact ⟨a, by simp [findClosestToSpawn], by simp, by intro h; cases h⟩
  | true =>
    obtain ⟨t, h1, h2, h3⟩ := closestByRange_spec hne
    exact ⟨t, by simp [findClosestToSpawn, h1], h2, fun _ => h3⟩

lemma mem_heal_filter {hs : List Hostile} {u : Hostile} :
    u ∈ hs.filter (fun c => decide (0 < c.heal)) ↔ u ∈ hs ∧ 0 < u.heal := by
  simp [List.mem_filter]

lemma mem_ranged_filter {hs : List Hostile} {u : Hostile} :
    u ∈ hs.filter (fun c => decide (0 < c.ranged)) ↔ u ∈ hs ∧ 0 < u.ranged := by
  simp [List.mem_filter]

lemma mem_attack_filter {hs : List Hostile} {u : Hostile} :
    u ∈ hs.filter (fun c => decide (0 < c.attack)) ↔ u ∈ hs ∧ 0 < u.attack := by
  simp [List.mem_filter]

/-- Claim C4: for every non-empty hostile set, the tower target selection
returns a hostile of the set following the strict priority heal-capable,
then ranged-capable, then melee-capable, then any hostile, with
closest-to-spawn as tie-break within the selected category; in particular
whenever a heal-capable hostile is present the target is heal-capable. -/
theorem findPriorityTarget_priority (hasSpawn : Bool) (hs : List Hostile)
    (hne : hs ≠ []) :
    ∃ t, findPriorityTarget hasSpawn hs = some t ∧ t ∈ hs ∧
      ((∃ h ∈ hs, 0 < h.heal) → 0 < t.heal ∧
        (hasSpawn = true → ∀ u ∈ hs, 0 < u.heal → t.distToSpawn ≤ u.distToSpawn)) ∧
      ((∀ h ∈ hs, h.heal = 0) → (∃ h ∈ hs, 0 < h.ranged) → 0 < t.ranged ∧
        (hasSpawn = true → ∀ u ∈ hs, 0 < u.ranged → t.distToSpawn ≤ u.distToSpawn)) ∧
      ((∀ h ∈ hs, h.heal = 0) → (∀ h ∈ hs, h.ranged = 0) →
        (∃ h ∈ hs, 0 < h.attack) → 0 < t.attack ∧
        (hasSpawn = true → ∀ u ∈ hs, 0 < u.attack → t.distToSpawn ≤ u.distToSpawn)) ∧
      ((∀ h ∈ hs, h.heal = 0 ∧ h.ranged = 0 ∧ h.attack = 0) →
        hasSpawn = true → ∀ u ∈ hs, t.distToSpawn ≤ u.distToSpawn) := by
  unfold findPriorityTarget
  by_cases hH : hs.filter (fun c => decide (0 < c.heal)) = []
  · have hHall : ∀ h ∈ hs, h.heal = 0 := by
      intro h hmem
      by_contra hne2
      have : h ∈ hs.filter (fun c => decide (0 < c.heal)) :=
        mem_heal_filter.mpr ⟨hmem, Nat.pos_of_ne_zero hne2⟩
      rw [hH] at this
      cases this
    rw [if_neg (by simp [hH])]
    by_cases hR : hs.filter (fun c => decide (0 < c.ranged)) = []
    · have hRall : ∀ h ∈ hs, h.ranged = 0 := by
        intro h hmem
        by_contra hne2
        have : h ∈ hs.filter (fun c => decide (0 < c.ranged)) :=
          mem_ranged_filter.mpr ⟨hmem, Nat.pos_of_ne_zero hne2⟩
        rw [hR] at this
        cases this
      rw [if_neg (by simp [hR])]
      by_cases hA : hs.filter (fun c => decide (0 < c.attack)) = []
      · have hAall : ∀ h ∈ hs, h.attack = 0 := by
          intro h hmem
          by_contra hne2
          have : h ∈ hs.filter (fun c => decide (0 < c.attack)) :=
            mem_attack_filter.mpr ⟨hmem, Nat.pos_of_ne_zero hne2⟩
          rw [hA] at this
          cases this
        rw [if_neg (by simp [hA])]
        obtain ⟨t, h1, h2, h3⟩ := findClosestToSpawn_spec hasSpawn hne
        refine ⟨t, h1, h2, ?_, ?_, ?_, ?_⟩
        · rintro ⟨h, hmem, hpos⟩
          exact absurd (hHall h hmem) (by omega)
        · rintro _ ⟨h, hmem, hpos⟩
          exact absurd (hRall h hmem) (by omega)
        · rintro _ _ ⟨h, hmem, hpos⟩
          exact absurd (hAall h hmem) (by omega)
        · intro _ hb u hu
          exact h3 hb u hu
      · rw [if_pos hA]
        obtain ⟨t, h1, h2, h3⟩ := findClosestToSpawn_spec hasSpawn hA
        obtain ⟨htmem, htpos⟩ := mem_attack_filter.mp h2
        refine ⟨t, h1, htmem, ?_, ?_, ?_, ?_⟩
        · rintro ⟨h, hmem, hpos⟩
          exact absurd (hHall h hmem) (by omega)
        · rintro _ ⟨h, hmem, hpos⟩
          exact absurd (hRall h hmem) (by omega)
        · refine fun _ _ _ => ⟨htpos, fun hb u hu hupos => ?_⟩
          exact h3 hb u (mem_attack_filter.mpr ⟨hu, hupos⟩)
        · intro hall
          exact absurd (hall t htmem).2.2 (by omega)
    · rw [if_pos hR]
      obtain ⟨t, h1, h2, h3⟩ := findClosestToSpawn_spec hasSpawn hR
      obtain ⟨htmem, htpos⟩ := mem_ranged_filter.mp h2
      refine ⟨t, h1, htmem, ?_, ?_, ?_, ?_⟩
      · rintro ⟨h, hmem, hpos⟩
        exact absurd (hHall h hmem) (by omega)
      · refine fun _ _ => ⟨htpos, fun hb u hu hupos => ?_⟩
        exact h3 hb u (mem_ranged_filter.mpr ⟨hu, hupos⟩)
      · intro _ hRall2
        exact absurd (hRall2 t htmem) (by omega)
      · intro hall
        exact absurd (hall t htmem).2.1 (by omega)
  · rw [if_pos hH]
    obtain ⟨t, h1, h2, h3⟩ := findClosestToSpawn_spec hasSpawn hH
    obtain ⟨htmem, htpos⟩ := mem_heal_filter.mp h2
    refine ⟨t, h1, htmem, ?_, ?_, ?_, ?_⟩
    · refine fun _ => ⟨htpos, fun hb u hu hupos => ?_⟩
      exact h3 hb u (mem_heal_filter.mpr ⟨hu, hupos⟩)
    · intro hHall2 _
      exact absurd (hHall2 t htmem) (by omega)
    · intro hHall2 _ _
      exact absurd (hHall2 t htmem) (by omega)
    · intro hall
      exact absurd (hall t htmem).1 (by omega)

/-- Witness for claim C4 on a set of one healer and two melee hostiles. -/
theorem findPriorityTarget_priority_witness :
    ∃ t, findPriorityTarget true
        [⟨0, 0, 5, 1⟩, ⟨2, 0, 0, 9⟩, ⟨0, 0, 3, 2⟩] = some t ∧
      t ∈ [(⟨0, 0, 5, 1⟩ : Hostile), ⟨2, 0, 0, 9⟩, ⟨0, 0, 3, 2⟩] ∧
      ((∃ h ∈ [(⟨0, 0, 5, 1⟩ : Hostile), ⟨2, 0, 0, 9⟩, ⟨0, 0, 3, 2⟩], 0 < h.heal) →
        0 < t.heal ∧
        (true = true → ∀ u ∈ [(⟨0, 0, 5, 1⟩ : Hostile), ⟨2, 0, 0, 9⟩, ⟨0, 0, 3, 2⟩],
          0 < u.heal → t.distToSpawn ≤ u.distToSpawn)) ∧
      ((∀ h ∈ [(⟨0, 0, 5, 1⟩ : Hostile), ⟨2, 0, 0, 9⟩, ⟨0, 0, 3, 2⟩], h.heal = 0) →
        (∃ h ∈ [(⟨0, 0, 5, 1⟩ : Hostile), ⟨2, 0, 0, 9⟩, ⟨0, 0, 3, 2⟩], 0 < h.ranged) →
        0 < t.ranged ∧
        (true = true → ∀ u ∈ [(⟨0, 0, 5, 1⟩ : Hostile), ⟨2, 0, 0, 9⟩, ⟨0, 0, 3, 2⟩],
          0 < u.ranged → t.distToSpawn ≤ u.distToSpawn)) ∧
      ((∀ h ∈ [(⟨0, 0, 5, 1⟩ : Hostile), ⟨2, 0, 0, 9⟩, ⟨0, 0, 3, 2⟩], h.heal = 0) →
        (∀ h ∈ [(⟨0, 0, 5, 1⟩ : Hostile), ⟨2, 0, 0, 9⟩, ⟨0, 0, 3, 2⟩], h.ranged = 0) →
        (∃ h ∈ [(⟨0, 0, 5, 1⟩ : Hostile), ⟨2, 0, 0, 9⟩, ⟨0, 0, 3, 2⟩], 0 < h.attack) →
        0 < t.attack ∧
        (true = true → ∀ u ∈ [(⟨0, 0, 5, 1⟩ : Hostile), ⟨2, 0, 0, 9⟩, ⟨0, 0, 3, 2⟩],
          0 < u.attack → t.distToSpawn ≤ u.distToSpawn)) ∧
      ((∀ h ∈ [(⟨0, 0, 5, 1⟩ : Hostile), ⟨2, 0, 0, 9⟩, ⟨0, 0, 3, 2⟩],
          h.heal = 0 ∧ h.ranged = 0 ∧ h.attack = 0) →
        true = true → ∀ u ∈ [(⟨0, 0, 5, 1⟩ : Hostile), ⟨2, 0, 0, 9⟩, ⟨0, 0, 3, 2⟩],
          t.distToSpawn ≤ u.distToSpawn) :=
  findPriorityTarget_priority true
    [⟨0, 0, 5, 1⟩, ⟨2, 0, 0, 9⟩, ⟨0, 0, 3, 2⟩] (by decide)

lemma createSellOrder_resource {mkt : Market} {room : String} {r : ResourceType}
    {a : Nat} {o : SellOrder} (h : createSellOrder mkt room r a = some o) :
    o.resource = r := by
  simp only [createSellOrder] at h
  split at h
  · exact absurd h (by simp)
  · split at h
    · exact absurd h (by simp)
    · split at h
      · cases h
        rfl
      · exact absurd h (by simp)

lemma createSellOrder_amount {mkt : Market} {room : String} {r : ResourceType}
    {a : Nat} {o : SellOrder} (h : createSellOrder mkt room r a = some o) :
    o.totalAmount = min a 5000 := by
  simp only [createSellOrder] at h
  split at h
  · exact absurd h (by simp)
  · split at h
    · exact absurd h (by simp)
    · split at h
      · cases h
        rfl
      · exact absurd h (by simp)

lemma createSellOrder_eq_some {mkt : Market} {room : String} {r : ResourceType}
    {b : ℚ} (a : Nat)
    (h1 : mkt.myOrders.find? (fun o =>
      decide (o.kind = OrderKind.sell ∧ o.resource = r ∧ o.roomName = room)) = none)
    (h2 : bestBuyPrice (mkt.buyPrices r) = some b)
    (h3 : 1000 < mkt.credits) :
    createSellOrder mkt room r a =
      some ⟨r, min a 5000, b * (95 / 100), room⟩ := by
  simp only [createSellOrder, h1, h2, Option.isSome_none, Bool.false_eq_true,
    if_false, if_pos h3]

lemma filter_hydrogen_filterMap_nil (store : ResourceType → Nat) (mkt : Market)
    (roomName : String) :
    ∀ (l : List (ResourceType × Nat)), (∀ rt ∈ l, rt.1 ≠ ResourceType.hydrogen) →
      (l.filterMap (fun rt =>
          if rt.2 < store rt.1 then
            createSellOrder mkt roomName rt.1 (store rt.1 - rt.2)
          else none)).filter
        (fun o => decide (o.resource = ResourceType.hydrogen)) = [] := by
  intro l
  induction l with
  | nil => simp
  | cons rt rest ih =>
    intro hl
    rw [List.filterMap_cons]
    cases hfc : (if rt.2 < store rt.1 then
        createSellOrder mkt roomName rt.1 (store rt.1 - rt.2) else none) with
    | none =>
      simp only []
      exact ih (fun x hx => hl x (List.mem_cons_of_mem _ hx))
    | some o =>
      have hres : o.resource = rt.1 := by
        split_ifs at hfc
        exact createSellOrder_resource hfc
      have hne : o.resource ≠ ResourceType.hydrogen := by
        rw [hres]
        exact hl rt (List.mem_cons_self _ _)
      simp only [List.filter_cons, hne, decide_eq_true_eq, if_neg hne]
      exact ih (fun x hx => hl x (List.mem_cons_of_mem _ hx))

/-- Claim C5: with the exchange facility holding 6000 units of hydrogen
(sell threshold 5000), no matching sell order, at least one buy order with
best price `b > 0`, and more than 1000 credits, the sell evaluation creates
exactly one hydrogen sell order, sized at the 1000-unit surplus and priced
at 0.95 of the best buy price, hence below it; in general any surplus
handed to createSellOrder is capped at the 5000-unit max order size. -/
theorem sellExcessResources_one_order (store : ResourceType → Nat) (mkt : Market)
    (roomName : String) (b : ℚ) (amt : Nat) (o : SellOrder)
    (hstore : store ResourceType.hydrogen = 6000)
    (hno : mkt.myOrders.find? (fun o =>
      decide (o.kind = OrderKind.sell ∧ o.resource = ResourceType.hydrogen ∧
        o.roomName = roomName)) = none)
    (hbest : bestBuyPrice (mkt.buyPrices ResourceType.hydrogen) = some b)
    (hb : 0 < b) (hcred : 1000 < mkt.credits)
    (hamt : createSellOrder mkt roomName ResourceType.hydrogen amt = some o) :
    (sellExcessResources store mkt roomName).filter
        (fun o => decide (o.resource = ResourceType.hydrogen)) =
      [⟨ResourceType.hydrogen, 1000, b * (95 / 100), roomName⟩] ∧
    b * (95 / 100) < b ∧
    o.totalAmount = min amt 5000 := by
  refine ⟨?_, by nlinarith, createSellOrder_amount hamt⟩
  have hscrut : createSellOrder mkt roomName ResourceType.hydrogen (6000 - 5000) =
      some ⟨ResourceType.hydrogen, 1000, b * (95 / 100), roomName⟩ := by
    rw [createSellOrder_eq_some (6000 - 5000) hno hbest hcred]
    norm_num
  have hrest := filter_hydrogen_filterMap_nil store mkt roomName
    [((ResourceType.oxygen : ResourceType), (5000 : Nat)), (.utrium, 3000),
     (.lemergium, 3000), (.keanium, 3000), (.zynthium, 3000), (.catalyst, 3000),
     (.ghodium, 1000)] (by decide)
  unfold sellExcessResources
  rw [show sellThresholds = (ResourceType.hydrogen, 5000) ::
    [((ResourceType.oxygen : ResourceType), (5000 : Nat)), (.utrium, 3000),
     (.lemergium, 3000), (.keanium, 3000), (.zynthium, 3000), (.catalyst, 3000),
     (.ghodium, 1000)] from rfl]
  rw [List.filterMap_cons]
  simp only [hstore]
  rw [if_pos (by norm_num : (5000 : Nat) < 6000)]
  simp only [hscrut]
  rw [List.filter_cons_of_pos (by rfl)]
  rw [hrest]

/-- Witness for claim C5 on a concrete store and market. -/
theorem sellExcessResources_one_order_witness :
    (sellExcessResources
        (fun r => match r with | ResourceType.hydrogen => 6000 | _ => 0)
        ⟨[], fun _ => [2], 2000⟩ "W1").filter
        (fun o => decide (o.resource = ResourceType.hydrogen)) =
      [⟨ResourceType.hydrogen, 1000, 2 * (95 / 100), "W1"⟩] ∧
    (2 : ℚ) * (95 / 100) < 2 ∧
    (⟨ResourceType.hydrogen, 5000, 2 * (95 / 100), "W1"⟩ : SellOrder).totalAmount =
      min 7000 5000 :=
  sellExcessResources_one_order
    (fun r => match r with | ResourceType.hydrogen => 6000 | _ => 0)
    ⟨[], fun _ => [2], 2000⟩ "W1" 2 7000
    ⟨ResourceType.hydrogen, 5000, 2 * (95 / 100), "W1"⟩
    rfl rfl rfl (by norm_num) (by norm_num)
    (by
      rw [@createSellOrder_eq_some ⟨[], fun _ => [2], 2000⟩ "W1"
        ResourceType.hydrogen 2 7000 rfl rfl (by norm_num)]
      norm_num)

/-- Claim C6: when the cached path's follow attempt returns ERR_NOT_FOUND
or ERR_INVALID_ARGS, the resolver deletes the cached path and recomputes in
the same invocation: with a non-empty fresh path, the record afterwards
stores the new serialized path stamped with the current tick (the stale
age stamp is overwritten) and the only follow attempts are the one failing
attempt on the stale path and one on the fresh path; with an empty fresh
path, the stale cache is simply gone and never retried. -/
theorem moveToTarget_recovers (follow : String → MoveResult) (newPath : List Nat)
    (now : Nat) (m : PathMem) (p : String)
    (hp : m.path = some p)
    (hf : follow p = MoveResult.errNotFound ∨ follow p = MoveResult.errInvalidArgs) :
    moveToTarget follow newPath now m =
      (if newPath.isEmpty then { m with path := none }
       else { path := some (serializePath newPath), pathAge := some now },
       if newPath.isEmpty then [p]
       else [p, serializePath newPath]) := by
  unfold moveToTarget
  rw [hp]
  rcases hf with hf | hf <;> by_cases hne : newPath.isEmpty <;> simp [hf, hne]

/-- Witness for claim C6 on a concrete stale path and recomputation. -/
theorem moveToTarget_recovers_witness :
    moveToTarget (fun _ => MoveResult.errNotFound) [3, 4] 7
        { path := some "0", pathAge := some 2 } =
      (if ([3, 4] : List Nat).isEmpty then
        { (⟨some "0", some 2⟩ : PathMem) with path := none }
       else { path := some (serializePath [3, 4]), pathAge := some 7 },
       if ([3, 4] : List Nat).isEmpty then ["0"]
       else ["0", serializePath [3, 4]]) :=
  moveToTarget_recovers (fun _ => MoveResult.errNotFound) [3, 4] 7
    { path := some "0", pathAge := some 2 } "0" rfl (Or.inl rfl)

/-- Claim C7, counterexample: a static miner whose recorded source id no
longer resolves keeps the stale id in its record — the run logs and
returns without deleting it. -/
theorem minerResolve_keeps_stale_id :
    minerResolve (fun _ => false) ⟨some "src1"⟩ = (none, ⟨some "src1"⟩) ∧
    (minerResolve (fun _ => false) ⟨some "src1"⟩).2.sourceId ≠ none := by
  decide

/-- Claim C7 (amended): when a persisted target id no longer resolves, the
mineral miner deletes the stale deposit id from its record during that
evaluation, while the static miner leaves its stale extraction-node id in
place (it only logs and returns). -/
theorem staleId_handling (minerals : List String) (alive : String → Bool)
    (mm : MineralMinerMem) (m : MinerMem) (i j : String)
    (hmm : mm.mineralId = some i) (hi : alive i = false)
    (hm : m.sourceId = some j) (hj : alive j = false) :
    mineralMinerResolve minerals alive mm = (none, ⟨none⟩) ∧
    minerResolve alive m = (none, m) := by
  constructor
  · unfold mineralMinerResolve
    rw [hmm]
    simp [hmm, hi]
  · unfold minerResolve
    rw [hm]
    simp [hm, hj]

/-- Witness for claim C7 (amended) on concrete stale records. -/
theorem staleId_handling_witness :
    mineralMinerResolve [] (fun _ => false) ⟨some "m1"⟩ = (none, ⟨none⟩) ∧
    minerResolve (fun _ => false) ⟨some "s1"⟩ = (none, ⟨some "s1"⟩) :=
  staleId_handling [] (fun _ => false) ⟨some "m1"⟩ ⟨some "s1"⟩ "m1" "s1"
    rfl rfl rfl rfl

/-- Claim C8: the hauler switches collecting to delivering exactly when
free capacity reaches zero and delivering to collecting exactly when
carried energy reaches zero, each switch clearing the cached target and
path; invoking the role at full load while already delivering leaves the
record untouched (no second clear), and at zero free capacity with zero
energy both switches fire in sequence, ending in collecting with cleared
fields. -/
theorem haulerTransition_spec (freeCapacity energy : Nat) (m : HaulerMem) :
    (m.state = HaulerState.collecting → freeCapacity = 0 → 0 < energy →
      haulerTransition freeCapacity energy m =
        ⟨HaulerState.delivering, none, none⟩) ∧
    (m.state = HaulerState.collecting → 0 < freeCapacity →
      haulerTransition freeCapacity energy m = m) ∧
    (m.state = HaulerState.delivering → energy = 0 →
      haulerTransition freeCapacity energy m =
        ⟨HaulerState.collecting, none, none⟩) ∧
    (m.state = HaulerState.delivering → 0 < energy →
      haulerTransition freeCapacity energy m = m) ∧
    (m.state = HaulerState.collecting → freeCapacity = 0 → energy = 0 →
      haulerTransition freeCapacity energy m =
        ⟨HaulerState.collecting, none, none⟩) := by
  refine ⟨?_, ?_, ?_, ?_, ?_⟩
  · intro hst hfree hen
    have hne : energy ≠ 0 := by omega
    simp [haulerTransition, hst, hfree, hne]
  · intro hst hfree
    have hne : freeCapacity ≠ 0 := by omega
    simp [haulerTransition, hst, hne]
  · intro hst hen
    have hne : m.state ≠ HaulerState.collecting := by rw [hst]; simp
    simp [haulerTransition, hne, hst, hen]
  · intro hst hen
    have hne1 : m.state ≠ HaulerState.collecting := by rw [hst]; simp
    have hne2 : energy ≠ 0 := by omega
    simp [haulerTransition, hne1, hne2]
  · intro hst hfree hen
    simp [haulerTransition, hst, hfree, hen]

/-- Witness for claim C8 exercising each transition case. -/
theorem haulerTransition_spec_witness :
    haulerTransition 0 5 ⟨HaulerState.collecting, some "t", some "p"⟩ =
      ⟨HaulerState.delivering, none, none⟩ ∧
    haulerTransition 3 5 ⟨HaulerState.collecting, some "t", some "p"⟩ =
      ⟨HaulerState.collecting, some "t", some "p"⟩ ∧
    haulerTransition 0 0 ⟨HaulerState.delivering, some "t", some "p"⟩ =
      ⟨HaulerState.collecting, none, none⟩ ∧
    haulerTransition 0 5 ⟨HaulerState.delivering, some "t", some "p"⟩ =
      ⟨HaulerState.delivering, some "t", some "p"⟩ ∧
    haulerTransition 0 0 ⟨HaulerState.collecting, some "t", some "p"⟩ =
      ⟨HaulerState.collecting, none, none⟩ :=
  ⟨(haulerTransition_spec 0 5 _).1 rfl rfl (by norm_num),
   (haulerTransition_spec 3 5 _).2.1 rfl (by norm_num),
   (haulerTransition_spec 0 0 _).2.2.1 rfl rfl,
   (haulerTransition_spec 0 5 _).2.2.2.1 rfl (by norm_num),
   (haulerTransition_spec 0 0 _).2.2.2.2 rfl rfl rfl⟩

/-- Claim C9: a cache read at tick now returns the stored value exactly
when an entry exists for the key and now minus its write tick is below the
ttl; the read leaves the cache contents untouched (logical expiry, no
eviction), and a write stores the value stamped with the current tick. -/
theorem cache_ttl_semantics {α : Type} (g : Cache α) (key : String)
    (ttl now : Nat) (v data : α) :
    ((getCached g key ttl now).1 = some v ↔
      ∃ e, (g.getD []).lookup key = some e ∧ (now : ℤ) - e.time < ttl ∧
        e.data = v) ∧
    (getCached g key ttl now).2 = g.getD [] ∧
    (setCached g key data now).lookup key = some ⟨data, now⟩ := by
  refine ⟨?_, ?_, ?_⟩
  · unfold getCached
    cases hl : (g.getD []).lookup key with
    | none => simp [hl]
    | some e =>
      by_cases httl : (now : ℤ) - e.time < ttl
      · simp only [hl, if_pos httl]
        constructor
        · intro h
          exact ⟨e, rfl, httl, by injection h⟩
        · rintro ⟨e2, he2, -, hdata⟩
          rw [Option.some_inj] at he2
          rw [← hdata, he2]
      · simp only [hl, if_neg httl]
        constructor
        · intro h
          cases h
        · rintro ⟨e2, he2, httl2, -⟩
          rw [Option.some_inj] at he2
          rw [← he2] at httl2
          exact absurd httl2 httl
  · unfold getCached
    cases hl : (g.getD []).lookup key with
    | none => simp [hl]
    | some e => by_cases httl : (now : ℤ) - e.time < ttl <;> simp [hl, httl]
  · unfold setCached
    simp [List.lookup]

lemma cleanOldPaths_fst (now maxAge : Nat) (creeps : List (String × CreepRecord)) :
    (cleanOldPaths now maxAge creeps).map Prod.fst = creeps.map Prod.fst := by
  unfold cleanOldPaths
  rw [List.map_map]
  congr 1
  funext nr
  simp only [Function.comp]
  split_ifs <;> rfl

/-- Claim C10: the state-store cleanup is tick-gated — on ticks not
divisible by 10 the whole store is left unchanged (so a dead agent's
record can persist up to 10 further ticks), path-staleness pruning touches
records only on ticks divisible by 100, room-record pruning only on ticks
divisible by 1000, and on a reconciliation tick every record of an agent
that is no longer alive is removed. -/
theorem runCleanup_tick_gated (now : Nat) (liveCreeps liveRooms : List String)
    (mem : Memory) :
    (now % 10 ≠ 0 → runCleanup now liveCreeps liveRooms mem = mem) ∧
    (now % 100 ≠ 0 →
      ∀ r ∈ (runCleanup now liveCreeps liveRooms mem).creeps, r ∈ mem.creeps) ∧
    (now % 1000 ≠ 0 →
      (runCleanup now liveCreeps liveRooms mem).rooms = mem.rooms) ∧
    (now % 10 = 0 → ∀ n, liveCreeps.contains n = false →
      n ∉ (runCleanup now liveCreeps liveRooms mem).creeps.map Prod.fst) := by
  refine ⟨?_, ?_, ?_, ?_⟩
  · intro h10
    have h100 : ¬ now % 100 = 0 := by omega
    have h1000 : ¬ now % 1000 = 0 := by omega
    simp [runCleanup, h10, h100, h1000]
  · intro h100 r hr
    by_cases h10 : now % 10 = 0 <;> by_cases h1000 : now % 1000 = 0 <;>
      simp [runCleanup, h10, h100, h1000] at hr <;>
      first
        | exact hr
        | exact List.mem_of_mem_filter hr
  · intro h1000
    by_cases h10 : now % 10 = 0 <;> by_cases h100 : now % 100 = 0 <;>
      simp [runCleanup, h10, h100, h1000]
  · intro h10 n hn hmem
    have hkey : ∀ cs : List (String × CreepRecord),
        n ∈ (cleanDeadCreeps liveCreeps cs).map Prod.fst → False := by
      intro cs hcs
      obtain ⟨pr, hpr, hfst⟩ := List.mem_map.mp hcs
      have hflt := List.mem_filter.mp hpr
      rw [hfst] at hflt
      rw [hn] at hflt
      exact absurd hflt.2 (by simp)
    have hkey2 : ∀ cs : List (String × CreepRecord),
        n ∈ (cleanOldPaths now 1000 (cleanDeadCreeps liveCreeps cs)).map
          Prod.fst → False := by
      intro cs hcs
      rw [cleanOldPaths_fst] at hcs
      exact hkey cs hcs
    by_cases h100 : now % 100 = 0
    · by_cases h1000 : now % 1000 = 0
      · simp only [runCleanup, if_pos h10, if_pos h100, if_pos h1000] at hmem
        exact hkey2 _ hmem
      · simp only [runCleanup, if_pos h10, if_pos h100, if_neg h1000] at hmem
        exact hkey2 _ hmem
    · by_cases h1000 : now % 1000 = 0
      · simp only [runCleanup, if_pos h10, if_neg h100, if_pos h1000] at hmem
        exact hkey _ hmem
      · simp only [runCleanup, if_pos h10, if_neg h100, if_neg h1000] at hmem
        exact hkey _ hmem

/-- Witness for claim C10 on a concrete store at ticks 7 and 10. -/
theorem runCleanup_tick_gated_witness :
    runCleanup 7 ["c1"] ["W"]
        ⟨[("c1", ⟨none, none, Role.hauler⟩), ("dead", ⟨none, none, Role.miner⟩)],
         [("W", [])]⟩ =
      ⟨[("c1", ⟨none, none, Role.hauler⟩), ("dead", ⟨none, none, Role.miner⟩)],
       [("W", [])]⟩ ∧
    ("c1", (⟨none, none, Role.hauler⟩ : CreepRecord)) ∈
      ([("c1", (⟨none, none, Role.hauler⟩ : CreepRecord)),
        ("dead", ⟨none, none, Role.miner⟩)] : List (String × CreepRecord)) ∧
    (runCleanup 10 ["c1"] ["W"]
        ⟨[("c1", ⟨none, none, Role.hauler⟩), ("dead", ⟨none, none, Role.miner⟩)],
         [("W", [])]⟩).rooms = [("W", [])] ∧
    "dead" ∉ (runCleanup 10 ["c1"] ["W"]
        ⟨[("c1", ⟨none, none, Role.hauler⟩), ("dead", ⟨none, none, Role.miner⟩)],
         [("W", [])]⟩).creeps.map Prod.fst :=
  ⟨(runCleanup_tick_gated 7 ["c1"] ["W"] _).1 (by norm_num),
   (runCleanup_tick_gated 10 ["c1"] ["W"]
       ⟨[("c1", ⟨none, none, Role.hauler⟩), ("dead", ⟨none, none, Role.miner⟩)],
        [("W", [])]⟩).2.1 (by norm_num)
     ("c1", ⟨none, none, Role.hauler⟩) (by decide),
   (runCleanup_tick_gated 10 ["c1"] ["W"] _).2.2.1 (by norm_num),
   (runCleanup_tick_gated 10 ["c1"] ["W"] _).2.2.2 (by norm_num) "dead" (by decide)⟩

end Screeps
